import Mathlib

/-!
Shallow embedding of `src/main.py` — the "minority wins" (少数胜) A/B
round-based chat game plugin (class `MinorGame` over `GameState`).

Modelling conventions:
* Python `dict` (insertion-ordered, update-in-place) is embedded as an
  association list `Dict α := List (Int × α)`; `d[k] = v` is `dset`
  (updates the existing slot in place, else appends), `d.get(k, x)` is
  `dgetD`, `d.setdefault(k, x)` is `dsetdefault`, `d.clear()` is `[]`.
* Python `set[int]` is a `Finset Int`.
* Python ints are `Int`; the counters `round_index`, `total_rounds` and
  the scores are `Nat` (the source only ever stores non-negative values
  in them: `int(parts[0])` of a digit string, 0, and `x + 1`).
* Every `yield event.plain_result(...)` / `await self.send_group(...)` /
  `await self.send_private(...)` of the source becomes one constructor of
  `Msg`, carrying the dynamic data interpolated into the text; the
  message transport itself is the out-of-scope adapter.  Delivery
  failures of private reminders are swallowed by the source
  (`try/except` + `logger.debug`), so reminders are modelled as emitted.
  Python `set` iteration order is unspecified; the reminder fan-out
  iterates `registered` in sorted order here.
* Handlers are pure: `GameState → Event → List Msg × GameState`.
-/

namespace MinorGame

/-- A participant's recorded choice; the source stores the strings
"A" / "B" (the four command aliases /A /a /B /b normalise case). -/
inductive Choice where
  | A : Choice
  | B : Choice
deriving DecidableEq, Repr

/-- Python `dict[int, α]` as an insertion-ordered association list. -/
abbrev Dict (α : Type) := List (Int × α)

/-- Python `d[k] = v`: update the existing slot in place, else append. -/
def dset (l : Dict α) (k : Int) (v : α) : Dict α :=
  match l with
  | [] => [(k, v)]
  | (k1, v1) :: t => if k1 = k then (k, v) :: t else (k1, v1) :: dset t k v

/-- Python `k in d` / `d.get(k)`: first (unique) binding of `k`. -/
def dlookup (l : Dict α) (k : Int) : Option α :=
  match l with
  | [] => none
  | (k1, v1) :: t => if k1 = k then some v1 else dlookup t k

/-- Python `d.get(k, x)`. -/
def dgetD (l : Dict α) (k : Int) (x : α) : α :=
  (dlookup l k).getD x

/-- Python `d.setdefault(k, x)`: insert `(k, x)` only when `k` is absent. -/
def dsetdefault (l : Dict α) (k : Int) (x : α) : Dict α :=
  match dlookup l k with
  | some _ => l
  | none => l ++ [(k, x)]

/-- Python `list(d.keys())` (insertion order). -/
def dkeys (l : Dict α) : List Int :=
  l.map Prod.fst

/-- A Python dict never holds two bindings for one key; the embedding
states this as a hypothesis where a claim needs it. -/
def DKeysNodup (l : Dict α) : Prop :=
  (dkeys l).Nodup

instance : DecidablePred (DKeysNodup (α := α)) := fun l =>
  inferInstanceAs (Decidable (dkeys l).Nodup)

/-- `@dataclass class GameState` (src/main.py lines 27-38), with the
source's field defaults. -/
structure GameState where
  group_id : Option Int := none
  title : String := "少数胜游戏"
  registered : Finset Int := ∅
  running : Bool := false
  round_index : Nat := 0
  total_rounds : Nat := 5
  in_round : Bool := false
  choices : Dict Choice := []
  scores : Dict Nat := []
  overtime : Bool := false
deriving DecidableEq

/-- `MinorGame.__init__`: `self.state = GameState()`. -/
def initState : GameState := {}

/-- An inbound chat event, reduced to the three attributes the source
reads: `event.get_group_id()` (`none` models both a `None` result and
the exception swallowed by `evt_group_id`), `event.get_sender_id()`,
`event.message_str` (the argument text after the command word). -/
structure Event where
  group_id : Option Int
  sender_id : Int
  message_str : String
deriving DecidableEq, Repr

/-- `is_group_event` (line 19): group id present and nonzero. -/
def is_group_event (e : Event) : Bool :=
  match e.group_id with
  | some g => g != 0
  | none => false

/-- `is_private_event` (line 23). -/
def is_private_event (e : Event) : Bool :=
  !is_group_event e

/-- Python truthiness of the `Optional[int]` field `group_id`
(`if not s.group_id:` is taken for `None` and for `0`). -/
def gidTruthy : Option Int → Bool
  | none => false
  | some g => g != 0

/-- One outbound message per distinct `yield` / `send_group` /
`send_private` site of the source, carrying its dynamic data. -/
inductive Msg where
  /-- announce_game usage reply (line 87). -/
  | replyUsage : Msg
  /-- announce_game non-numeric group id reply (line 93). -/
  | replyBadGroupId : Msg
  /-- announce_game group announcement (line 98). -/
  | groupAnnounce (gid : Int) (title : String) : Msg
  /-- announce_game confirmation reply (line 99). -/
  | replyAnnounced : Msg
  /-- register: no active announcement (line 110). -/
  | replyNoActivity : Msg
  /-- register: wrong channel, go to group `gid` (line 114). -/
  | replyWrongChannel (gid : Option Int) : Msg
  /-- register success (line 120). -/
  | replyRegistered : Msg
  /-- start_game: no announcement yet (line 131). -/
  | replyNoAnnouncement : Msg
  /-- start_game: already running (line 134). -/
  | replyAlreadyRunning : Msg
  /-- start_game: no registered players (line 137). -/
  | replyNoPlayers : Msg
  /-- start_game group start announcement (line 147). -/
  | groupStart (gid : Option Int) (title : String) (total players : Nat) : Msg
  /-- _start_next_round group prompt (line 164); `overtime` selects the
  "延长赛" label over "第N轮". -/
  | groupRoundPrompt (gid : Option Int) (overtime : Bool) (round : Nat) : Msg
  /-- _start_next_round private reminder (line 169). -/
  | privReminder (uid : Int) (title : String) (overtime : Bool) (round : Nat) : Msg
  /-- _handle_choice: not in submission phase (line 197). -/
  | replyNotInPhase : Msg
  /-- _handle_choice: sender not registered (line 202). -/
  | replyNotRegistered : Msg
  /-- _handle_choice success (line 206). -/
  | replyChoiceRecorded (c : Choice) : Msg
  /-- end_round: no round in progress (line 213). -/
  | replyNoRound : Msg
  /-- _settle_round group summary (line 279): tallies, winner, and
  whether the tie/parity reason (vs "少数方胜") was announced. -/
  | groupSettle (gid : Option Int) (overtime : Bool) (round a b : Nat)
      (winner : Choice) (tie : Bool) : Msg
  /-- end_round overtime entry announcement (line 224). -/
  | groupOvertimeEnter (gid : Option Int) (total top : Nat) : Msg
  /-- end_game: no running game (line 243). -/
  | replyNoGame : Msg
  /-- _finish_game: nobody scored (line 290). -/
  | groupNoScores (gid : Option Int) : Msg
  /-- _finish_game final ranking (lines 292-295). -/
  | groupRanking (gid : Option Int) (title : String) (ranking : List (Int × Nat)) : Msg
deriving DecidableEq, Repr

/-- Non-empty and all ASCII decimal digits, on a character list. -/
def isDigits (l : List Char) : Bool :=
  !l.isEmpty && l.all Char.isDigit

/-- Decimal value of a digit character list. -/
def charsToNat (l : List Char) : Nat :=
  l.foldl (fun n c => n * 10 + (c.toNat - 48)) 0

/-- Python `str.isdigit()` restricted to the ASCII decimal digits the
plugin's inputs use (the unicode digit classes are not modelled). -/
def strIsDigit (s : String) : Bool :=
  isDigits s.data

/-- Python `int(str)` on an all-digit string. -/
def strToNat (s : String) : Nat :=
  charsToNat s.data

/-- One step of the whitespace tokeniser: the accumulator holds the
token currently being built and the tokens already found to the right. -/
def wsSplitStep (c : Char) : List Char × List (List Char) → List Char × List (List Char)
  | (cur, toks) =>
    if c.isWhitespace then
      if cur.isEmpty then ([], toks) else ([], cur :: toks)
    else (c :: cur, toks)

/-- Split a character list into maximal whitespace-free runs. -/
def wsSplit (l : List Char) : List (List Char) :=
  let p := l.foldr wsSplitStep ([], [])
  if p.1.isEmpty then p.2 else p.1 :: p.2

/-- Python `message.strip().split()`: split on whitespace, drop empties. -/
def pySplit (s : String) : List String :=
  (wsSplit s.data).map (fun cs => ⟨cs⟩)

/-- Python `str.strip()` on a character list. -/
def stripChars (l : List Char) : List Char :=
  ((l.dropWhile Char.isWhitespace).reverse.dropWhile Char.isWhitespace).reverse

/-- Python `message.strip().split(maxsplit=1)`: first token, then the
rest of the stripped text. -/
def pySplitMax1 (s : String) : List String :=
  let t := stripChars s.data
  if t.isEmpty then []
  else
    let head := t.takeWhile (fun c => !c.isWhitespace)
    let rest := stripChars (t.dropWhile (fun c => !c.isWhitespace))
    if rest.isEmpty then [⟨head⟩] else [⟨head⟩, ⟨rest⟩]

/-- Python `int(str)` as used by announce_game: optional sign followed
by ASCII digits (the underscore-grouping and unicode forms Python also
accepts are not used by this plugin's inputs). -/
def pyParseInt (s : String) : Option Int :=
  match s.data with
  | [] => none
  | c :: cs =>
    if c = '-' then
      if isDigits cs then some (-(charsToNat cs : Int)) else none
    else if c = '+' then
      if isDigits cs then some (charsToNat cs : Int) else none
    else if isDigits (c :: cs) then some (charsToNat (c :: cs) : Int)
    else none

/-- `MinorGame.announce_game` (lines 79-99): parse `<群号> <标题>`,
replace the whole state, announce in the target group. -/
def announce_game (s : GameState) (e : Event) : List Msg × GameState :=
  match pySplitMax1 e.message_str with
  | [] => ([Msg.replyUsage], s)
  | arg0 :: rest =>
    match pyParseInt arg0 with
    | none => ([Msg.replyBadGroupId], s)
    | some gid =>
      let title := match rest with
        | [] => "少数胜游戏"
        | t :: _ => t
      ([Msg.groupAnnounce gid title, Msg.replyAnnounced],
       { group_id := some gid, title := title })

/-- `MinorGame.register` (lines 102-120): requires an announced group and
the event to come from exactly that group; adds the sender to
`registered` and seeds the score with `setdefault(uid, 0)`. -/
def register (s : GameState) (e : Event) : List Msg × GameState :=
  if !gidTruthy s.group_id then ([Msg.replyNoActivity], s)
  else if !is_group_event e || e.group_id != s.group_id then
    ([Msg.replyWrongChannel s.group_id], s)
  else
    ([Msg.replyRegistered],
     { s with registered := insert e.sender_id s.registered,
              scores := dsetdefault s.scores e.sender_id 0 })

/-- Ordered insertion of an id into a sorted id list. -/
def intInsert (x : Int) : List Int → List Int
  | [] => [x]
  | y :: t => if x ≤ y then x :: y :: t else y :: intInsert x t

/-- Insertion sort for participant ids; Python iterates `set` members in
an unspecified order, fixed here to ascending ids. -/
def intSort : List Int → List Int
  | [] => []
  | x :: t => intInsert x (intSort t)

theorem intInsert_perm (x : Int) (l : List Int) :
    List.Perm (intInsert x l) (x :: l) := by
  induction l with
  | nil => exact List.Perm.refl _
  | cons y t ih =>
    unfold intInsert
    by_cases h : x ≤ y
    · rw [if_pos h]
    · rw [if_neg h]
      exact (ih.cons y).trans (List.Perm.swap x y t)

theorem intSort_perm (l : List Int) : List.Perm (intSort l) l := by
  induction l with
  | nil => exact List.Perm.refl _
  | cons x t ih => exact (intInsert_perm x (intSort t)).trans (ih.cons x)

theorem intInsert_sorted (x : Int) (l : List Int)
    (h : l.Sorted (· ≤ ·)) : (intInsert x l).Sorted (· ≤ ·) := by
  induction l with
  | nil => simp [intInsert]
  | cons y t ih =>
    unfold intInsert
    by_cases hxy : x ≤ y
    · rw [if_pos hxy]
      refine List.sorted_cons.mpr ⟨?_, h⟩
      intro b hb
      rcases List.mem_cons.mp hb with hb | hb
      · exact hb ▸ hxy
      · exact le_trans hxy ((List.sorted_cons.mp h).1 b hb)
    · rw [if_neg hxy]
      have hs := List.sorted_cons.mp h
      refine List.sorted_cons.mpr ⟨?_, ih hs.2⟩
      intro b hb
      rcases List.mem_cons.mp ((intInsert_perm x t).mem_iff.mp hb) with hb | hb
      · rw [hb]
        exact le_of_lt (lt_of_not_le hxy)
      · exact hs.1 b hb

theorem intSort_sorted (l : List Int) : (intSort l).Sorted (· ≤ ·) := by
  induction l with
  | nil => simp [intSort]
  | cons x t ih => exact intInsert_sorted x (intSort t) ih

theorem intSort_eq_of_perm (a b : List Int) (h : List.Perm a b) :
    intSort a = intSort b :=
  List.eq_of_perm_of_sorted
    (((intSort_perm a).trans h).trans (intSort_perm b).symm)
    (intSort_sorted a) (intSort_sorted b)

/-- The registered set as an ascending id list (a canonical stand-in for
Python's unspecified set iteration order). -/
def finsetSortedList (s : Finset Int) : List Int :=
  Quot.lift intSort (fun a b h => intSort_eq_of_perm a b h) s.val

/-- `MinorGame._start_next_round` (lines 151-171): advance the round
counter, open the round, clear choices, prompt the group and remind each
registered player privately. -/
def start_next_round (s : GameState) : List Msg × GameState :=
  let s1 := { s with round_index := s.round_index + 1, in_round := true,
                     choices := [] }
  (Msg.groupRoundPrompt s1.group_id s1.overtime s1.round_index ::
    (finsetSortedList s1.registered).map
      (fun uid => Msg.privReminder uid s1.title s1.overtime s1.round_index),
   s1)

/-- `MinorGame.start_game` (lines 123-148): guard announcement /
not-running / players, read an all-digit first token into
`total_rounds`, reset the counters, announce and begin round 1. -/
def start_game (s : GameState) (e : Event) : List Msg × GameState :=
  if !gidTruthy s.group_id then ([Msg.replyNoAnnouncement], s)
  else if s.running then ([Msg.replyAlreadyRunning], s)
  else if s.registered.card < 1 then ([Msg.replyNoPlayers], s)
  else
    let total := match pySplit e.message_str with
      | p :: _ => if strIsDigit p then strToNat p else s.total_rounds
      | [] => s.total_rounds
    let s1 := { s with total_rounds := total, running := true,
                       round_index := 0, overtime := false }
    let next := start_next_round s1
    (Msg.groupStart s1.group_id s1.title s1.total_rounds s1.registered.card ::
      next.1, next.2)

/-- `MinorGame._handle_choice` (lines 190-206): group events are
silently dropped; otherwise guard phase and registration, then record
the choice (last write wins). -/
def handle_choice (s : GameState) (e : Event) (c : Choice) : List Msg × GameState :=
  if !is_private_event e then ([], s)
  else if !s.running || !s.in_round then ([Msg.replyNotInPhase], s)
  else if e.sender_id ∉ s.registered then ([Msg.replyNotRegistered], s)
  else
    ([Msg.replyChoiceRecorded c],
     { s with choices := dset s.choices e.sender_id c })

/-- `a = sum(1 for v in s.choices.values() if v == "A")` (line 253). -/
def tallyA (l : Dict Choice) : Nat :=
  (l.filter (fun kv => kv.2 == Choice.A)).length

/-- `b = sum(1 for v in s.choices.values() if v == "B")` (line 254). -/
def tallyB (l : Dict Choice) : Nat :=
  (l.filter (fun kv => kv.2 == Choice.B)).length

/-- The winner determination of `_settle_round` (lines 258-264):
tie broken by round parity, otherwise the strictly smaller tally wins. -/
def roundWinner (a b round_index : Nat) : Choice :=
  if a = b then (if round_index % 2 = 1 then Choice.A else Choice.B)
  else if a < b then Choice.A
  else Choice.B

/-- The winner `_settle_round` computes on a state. -/
def roundWinnerOf (s : GameState) : Choice :=
  roundWinner (tallyA s.choices) (tallyB s.choices) s.round_index

/-- `s.scores[uid] = s.scores.get(uid, 0) + 1` (line 269). -/
def credit (sc : Dict Nat) (uid : Int) : Dict Nat :=
  dset sc uid (dgetD sc uid 0 + 1)

/-- The `for uid in winners` crediting loop (lines 268-269). -/
def creditAll (sc : Dict Nat) (ws : List Int) : Dict Nat :=
  ws.foldl credit sc

/-- `winners = [uid for uid, c in s.choices.items() if c == winner]`
(line 267). -/
def winnersOf (l : Dict Choice) (w : Choice) : List Int :=
  (l.filter (fun kv => kv.2 == w)).map Prod.fst

/-- `MinorGame._settle_round` (lines 250-279): close the round, tally,
pick the winner, credit every player who chose it, post the summary. -/
def settle_round (s : GameState) : List Msg × GameState :=
  let a := tallyA s.choices
  let b := tallyB s.choices
  let w := roundWinner a b s.round_index
  ([Msg.groupSettle s.group_id s.overtime s.round_index a b w (a == b)],
   { s with in_round := false,
            scores := creditAll s.scores (winnersOf s.choices w) })

/-- `max` over a list of naturals, as `max(values)` on a nonempty
values list (all scores are non-negative, so the 0 seed is neutral). -/
def listMax (l : List Nat) : Nat :=
  l.foldl max 0

/-- `MinorGame._leaders` (lines 302-308): participants holding the
maximum score, with that maximum; `([], 0)` for empty scores. -/
def leaders (s : GameState) : List Int × Nat :=
  if s.scores.isEmpty then ([], 0)
  else
    let top := listMax (s.scores.map Prod.snd)
    ((s.scores.filter (fun kv => kv.2 == top)).map Prod.fst, top)

/-- The ordering of `sorted(s.scores.items(), key=lambda kv: (-kv[1], kv[0]))`
(line 288): score descending, then uid ascending. -/
def rankLE (x y : Int × Nat) : Bool :=
  y.2 < x.2 || (x.2 == y.2 && x.1 ≤ y.1)

/-- Ordered insertion for `rankSort`. -/
def rankInsert (x : Int × Nat) : List (Int × Nat) → List (Int × Nat)
  | [] => [x]
  | y :: t => if rankLE x y then x :: y :: t else y :: rankInsert x t

/-- `ranking = sorted(s.scores.items(), key=lambda kv: (-kv[1], kv[0]))`
(line 288), as a stable insertion sort. -/
def rankSort : List (Int × Nat) → List (Int × Nat)
  | [] => []
  | x :: t => rankInsert x (rankSort t)

/-- `MinorGame._finish_game` (lines 282-299): stop the game, post the
ranking (or "no one scored"), reset to a fresh state keeping only
`group_id` and `title`. -/
def finish_game (s : GameState) : List Msg × GameState :=
  let ranking := rankSort s.scores
  ((if ranking.isEmpty then [Msg.groupNoScores s.group_id]
    else [Msg.groupRanking s.group_id s.title ranking]),
   { group_id := s.group_id, title := s.title })

/-- `MinorGame.end_round` (lines 209-236): settle, then either enter or
continue overtime while the leaders stay tied, or finish, or start the
next regular round.  The handler never reads the event. -/
def end_round (s : GameState) (e : Event) : List Msg × GameState :=
  if !s.running || !s.in_round then ([Msg.replyNoRound], s)
  else
    let settled := settle_round s
    let s1 := settled.2
    if !s1.overtime && s1.total_rounds ≤ s1.round_index then
      let ls := leaders s1
      if 2 ≤ ls.1.length then
        let s2 := { s1 with overtime := true }
        let next := start_next_round s2
        (settled.1 ++ Msg.groupOvertimeEnter s2.group_id s2.total_rounds ls.2 ::
          next.1, next.2)
      else
        let fin := finish_game s1
        (settled.1 ++ fin.1, fin.2)
    else if s1.overtime then
      let ls := leaders s1
      if 2 ≤ ls.1.length then
        let next := start_next_round s1
        (settled.1 ++ next.1, next.2)
      else
        let fin := finish_game s1
        (settled.1 ++ fin.1, fin.2)
    else
      let next := start_next_round s1
      (settled.1 ++ next.1, next.2)

/-- `MinorGame.end_game` (lines 239-247): force-end — settle the open
round if any, then finish; the handler never reads the event. -/
def end_game (s : GameState) (e : Event) : List Msg × GameState :=
  if !s.running then ([Msg.replyNoGame], s)
  else
    let settled := if s.in_round then settle_round s else ([], s)
    let fin := finish_game settled.2
    (settled.1 ++ fin.1, fin.2)

/-- One inbound command, dispatching to a handler (the four choice
aliases /A /a /B /b normalise to the two `Choice` values). -/
inductive Cmd where
  | announce (e : Event) : Cmd
  | reg (e : Event) : Cmd
  | start (e : Event) : Cmd
  | choice (e : Event) (c : Choice) : Cmd
  | endRound (e : Event) : Cmd
  | endGame (e : Event) : Cmd

/-- The state after one complete command. -/
def stepState (s : GameState) : Cmd → GameState
  | Cmd.announce e => (announce_game s e).2
  | Cmd.reg e => (register s e).2
  | Cmd.start e => (start_game s e).2
  | Cmd.choice e c => (handle_choice s e c).2
  | Cmd.endRound e => (end_round s e).2
  | Cmd.endGame e => (end_game s e).2

/-- States reachable from the plugin's initial state by complete
commands (the quiescent states between handler invocations). -/
inductive Reachable : GameState → Prop where
  | init : Reachable initState
  | step {s : GameState} (c : Cmd) : Reachable s → Reachable (stepState s c)

/-- Run a list of commands from a state. -/
def runCmds (s : GameState) : List Cmd → GameState
  | [] => s
  | c :: cs => runCmds (stepState s c) cs

theorem reachable_runCmds (s : GameState) (cs : List Cmd) (h : Reachable s) :
    Reachable (runCmds s cs) := by
  induction cs generalizing s with
  | nil => exact h
  | cons c cs ih => exact ih _ (Reachable.step c h)

/-! ### Dictionary lemmas -/

theorem dlookup_dset (l : Dict α) (k k1 : Int) (v : α) :
    dlookup (dset l k v) k1 = if k = k1 then some v else dlookup l k1 := by
  induction l with
  | nil => simp [dset, dlookup]
  | cons kv t ih =>
    obtain ⟨k2, v2⟩ := kv
    by_cases h2 : k2 = k
    · subst h2
      by_cases h1 : k2 = k1 <;> simp [dset, dlookup, h1]
    · by_cases h1 : k2 = k1
      · subst h1
        have : ¬ k = k2 := fun h => h2 h.symm
        simp [dset, dlookup, h2, this]
      · simp [dset, dlookup, h2, h1, ih]

theorem dgetD_dset (l : Dict α) (k k1 : Int) (v x : α) :
    dgetD (dset l k v) k1 x = if k = k1 then v else dgetD l k1 x := by
  unfold dgetD
  rw [dlookup_dset]
  by_cases h : k = k1 <;> simp [h]

theorem dlookup_eq_none_iff (l : Dict α) (k : Int) :
    dlookup l k = none ↔ k ∉ dkeys l := by
  induction l with
  | nil => simp [dlookup, dkeys]
  | cons kv t ih =>
    obtain ⟨k1, v1⟩ := kv
    by_cases h : k1 = k
    · subst h
      simp [dlookup, dkeys]
    · have hne : ¬ k = k1 := fun he => h he.symm
      simp [dlookup, dkeys, h, hne, ih]

theorem dlookup_append_right (l : Dict α) (k : Int) (x : α)
    (h : dlookup l k = none) : dlookup (l ++ [(k, x)]) k = some x := by
  induction l with
  | nil => simp [dlookup]
  | cons kv t ih =>
    obtain ⟨k1, v1⟩ := kv
    by_cases h1 : k1 = k
    · simp [dlookup, h1] at h
    · simp only [dlookup, h1, if_false, List.cons_append] at h ⊢
      exact ih h

theorem dlookup_dsetdefault_self (l : Dict α) (k : Int) (x : α) :
    dlookup (dsetdefault l k x) k = some (dgetD l k x) := by
  unfold dsetdefault dgetD
  cases h : dlookup l k with
  | some v => simp [h]
  | none => simp [h, dlookup_append_right l k x h]

theorem dgetD_dsetdefault_self (l : Dict α) (k : Int) (x : α) :
    dgetD (dsetdefault l k x) k x = dgetD l k x := by
  unfold dgetD
  rw [dlookup_dsetdefault_self]
  rfl

theorem mem_dkeys_dsetdefault_self (l : Dict α) (k : Int) (x : α) :
    k ∈ dkeys (dsetdefault l k x) := by
  unfold dsetdefault
  cases h : dlookup l k with
  | some v =>
    by_contra hk
    rw [(dlookup_eq_none_iff l k).mpr hk] at h
    exact Option.noConfusion h
  | none => simp [dkeys]

theorem mem_dkeys_dsetdefault_of_mem (l : Dict α) (k : Int) (x : α) (u : Int)
    (h : u ∈ dkeys l) : u ∈ dkeys (dsetdefault l k x) := by
  unfold dsetdefault
  cases dlookup l k with
  | some v => exact h
  | none => simp [dkeys]; exact Or.inl (by simpa [dkeys] using h)

theorem mem_dkeys_dset_of_mem (l : Dict α) (k : Int) (v : α) (u : Int)
    (h : u ∈ dkeys l) : u ∈ dkeys (dset l k v) := by
  induction l with
  | nil => simp [dkeys] at h
  | cons kv t ih =>
    obtain ⟨k1, v1⟩ := kv
    by_cases h1 : k1 = k
    · subst h1
      simpa [dset, dkeys] using h
    · simp only [dkeys, List.map_cons] at h
      rcases List.mem_cons.mp h with h | h
      · simp [dset, h1, dkeys, h]
      · simp only [dset, h1, if_false, dkeys, List.map_cons, List.mem_cons]
        exact Or.inr (ih h)

/-! ### Crediting lemmas -/

theorem dgetD_credit (sc : Dict Nat) (w u : Int) :
    dgetD (credit sc w) u 0
      = if w = u then dgetD sc u 0 + 1 else dgetD sc u 0 := by
  unfold credit
  rw [dgetD_dset]
  by_cases h : w = u
  · subst h; simp
  · simp [h]

theorem creditAll_getD (ws : List Int) (hnd : ws.Nodup) (sc : Dict Nat) (u : Int) :
    dgetD (creditAll sc ws) u 0
      = dgetD sc u 0 + (if u ∈ ws then 1 else 0) := by
  induction ws generalizing sc with
  | nil => simp [creditAll]
  | cons w t ih =>
    have hw : w ∉ t := (List.nodup_cons.mp hnd).1
    have ht : t.Nodup := (List.nodup_cons.mp hnd).2
    have hstep : creditAll sc (w :: t) = creditAll (credit sc w) t := rfl
    rw [hstep, ih ht, dgetD_credit]
    by_cases h : w = u
    · subst h
      simp [hw]
    · have hne : ¬ u = w := fun he => h he.symm
      simp [h, hne, List.mem_cons]

theorem dkeys_subset_creditAll (ws : List Int) (sc : Dict Nat) (u : Int)
    (h : u ∈ dkeys sc) : u ∈ dkeys (creditAll sc ws) := by
  induction ws generalizing sc with
  | nil => exact h
  | cons w t ih =>
    have hstep : creditAll sc (w :: t) = creditAll (credit sc w) t := rfl
    rw [hstep]
    exact ih _ (mem_dkeys_dset_of_mem _ _ _ _ h)

/-! ### Winner-set lemmas -/

theorem winnersOf_cons (k : Int) (c : Choice) (t : Dict Choice) (w : Choice) :
    winnersOf ((k, c) :: t) w
      = if c = w then k :: winnersOf t w else winnersOf t w := by
  unfold winnersOf
  by_cases hc : c = w <;> simp [List.filter_cons, hc]

theorem mem_winnersOf (l : Dict Choice) (hnd : DKeysNodup l) (w : Choice) (u : Int) :
    u ∈ winnersOf l w ↔ dlookup l u = some w := by
  induction l with
  | nil => simp [winnersOf, dlookup]
  | cons kv t ih =>
    obtain ⟨k, c⟩ := kv
    have hnd1 : (k :: dkeys t).Nodup := hnd
    have hk : k ∉ dkeys t := (List.nodup_cons.mp hnd1).1
    have ht : DKeysNodup t := (List.nodup_cons.mp hnd1).2
    rw [winnersOf_cons]
    by_cases hku : k = u
    · subst hku
      have hnone : dlookup t k = none := (dlookup_eq_none_iff t k).mpr hk
      have hnw : k ∉ winnersOf t w := fun hmem =>
        Option.noConfusion (hnone ▸ (ih ht).mp hmem)
      have hlk : dlookup ((k, c) :: t) k = some c := by simp [dlookup]
      rw [hlk]
      by_cases hc : c = w
      · subst hc
        simp
      · rw [if_neg hc]
        constructor
        · intro hmem
          exact absurd hmem hnw
        · intro hsome
          exact absurd (Option.some.inj hsome) hc
    · have hlk : dlookup ((k, c) :: t) u = dlookup t u := by
        simp [dlookup, hku]
      rw [hlk]
      by_cases hc : c = w
      · rw [if_pos hc, List.mem_cons]
        constructor
        · rintro (he | hmem)
          · exact absurd he.symm hku
          · exact (ih ht).mp hmem
        · intro hsome
          exact Or.inr ((ih ht).mpr hsome)
      · rw [if_neg hc]
        exact ih ht

theorem winnersOf_nodup (l : Dict Choice) (hnd : DKeysNodup l) (w : Choice) :
    (winnersOf l w).Nodup := by
  have hsub : (l.filter (fun kv => kv.2 == w)).Sublist l := List.filter_sublist l
  have : (winnersOf l w).Sublist (dkeys l) := hsub.map Prod.fst
  exact this.nodup hnd

/-! ### Ranking-sort lemmas -/

theorem rankInsert_perm (x : Int × Nat) (l : List (Int × Nat)) :
    List.Perm (rankInsert x l) (x :: l) := by
  induction l with
  | nil => exact List.Perm.refl _
  | cons y t ih =>
    unfold rankInsert
    cases h : rankLE x y with
    | true => simp
    | false =>
      simp only [Bool.false_eq_true, if_false]
      exact (ih.cons y).trans (List.Perm.swap x y t)

theorem rankSort_perm (l : List (Int × Nat)) : List.Perm (rankSort l) l := by
  induction l with
  | nil => exact List.Perm.refl _
  | cons x t ih => exact (rankInsert_perm x (rankSort t)).trans (ih.cons x)

theorem mem_map_fst_rankSort (l : List (Int × Nat)) (u : Int) :
    u ∈ (rankSort l).map Prod.fst ↔ u ∈ l.map Prod.fst :=
  ((rankSort_perm l).map Prod.fst).mem_iff

theorem rankSort_eq_nil_iff (l : List (Int × Nat)) : rankSort l = [] ↔ l = [] := by
  constructor
  · intro h
    have := (rankSort_perm l).length_eq
    rw [h] at this
    exact List.length_eq_zero.mp this.symm
  · intro h
    subst h
    rfl

/-! ### State characterisations of the handlers -/

theorem announce_state (s : GameState) (e : Event) :
    (announce_game s e).2 = s
    ∨ ∃ gid title, (announce_game s e).2 = { group_id := some gid, title := title } := by
  unfold announce_game
  split
  · exact Or.inl rfl
  · split
    · exact Or.inl rfl
    · exact Or.inr ⟨_, _, rfl⟩

theorem register_state (s : GameState) (e : Event) :
    (register s e).2 = s
    ∨ (register s e).2
        = { s with registered := insert e.sender_id s.registered,
                   scores := dsetdefault s.scores e.sender_id 0 } := by
  unfold register
  split
  · exact Or.inl rfl
  · split
    · exact Or.inl rfl
    · exact Or.inr rfl

theorem start_next_round_state (s : GameState) :
    (start_next_round s).2
      = { s with round_index := s.round_index + 1, in_round := true,
                 choices := [] } := rfl

theorem start_game_state (s : GameState) (e : Event) :
    (start_game s e).2 = s
    ∨ ∃ t, (start_game s e).2
        = { s with total_rounds := t, running := true, round_index := 1,
                   overtime := false, in_round := true, choices := [] } := by
  unfold start_game
  split
  · exact Or.inl rfl
  · split
    · exact Or.inl rfl
    · split
      · exact Or.inl rfl
      · exact Or.inr ⟨_, rfl⟩

theorem handle_choice_state (s : GameState) (e : Event) (c : Choice) :
    (handle_choice s e c).2 = s
    ∨ (handle_choice s e c).2
        = { s with choices := dset s.choices e.sender_id c } := by
  unfold handle_choice
  split
  · exact Or.inl rfl
  · split
    · exact Or.inl rfl
    · split
      · exact Or.inl rfl
      · exact Or.inr rfl

theorem settle_round_state (s : GameState) :
    (settle_round s).2
      = { s with in_round := false,
                 scores := creditAll s.scores
                   (winnersOf s.choices (roundWinnerOf s)) } := rfl

theorem end_round_state (s : GameState) (e : Event) :
    (end_round s e).2 = s
    ∨ (end_round s e).2 = { group_id := s.group_id, title := s.title }
    ∨ ((end_round s e).2
          = { s with in_round := true, choices := [],
                     scores := creditAll s.scores
                       (winnersOf s.choices (roundWinnerOf s)),
                     overtime := true, round_index := s.round_index + 1 }
        ∧ s.total_rounds ≤ s.round_index)
    ∨ (end_round s e).2
        = { s with in_round := true, choices := [],
                   scores := creditAll s.scores
                     (winnersOf s.choices (roundWinnerOf s)),
                   round_index := s.round_index + 1 } := by
  unfold end_round
  split
  · exact Or.inl rfl
  · dsimp only
    split
    · rename_i hcond
      split
      · refine Or.inr (Or.inr (Or.inl ⟨rfl, ?_⟩))
        exact of_decide_eq_true ((Bool.and_eq_true _ _).mp hcond).2
      · exact Or.inr (Or.inl rfl)
    · split
      · split
        · exact Or.inr (Or.inr (Or.inr rfl))
        · exact Or.inr (Or.inl rfl)
      · exact Or.inr (Or.inr (Or.inr rfl))

theorem end_game_state (s : GameState) (e : Event) :
    (end_game s e).2 = s
    ∨ (end_game s e).2 = { group_id := s.group_id, title := s.title } := by
  unfold end_game
  split
  · exact Or.inl rfl
  · split
    · exact Or.inr rfl
    · exact Or.inr rfl

/-! ### The reachability invariant -/

/-- The inductive invariant of the quiescent states: overtime happens
only past the regular rounds, a running game always has an open round,
an idle state still has the default round target, and every registered
participant has a scores entry. -/
def InvP (s : GameState) : Prop :=
  (s.overtime = true → s.total_rounds < s.round_index)
  ∧ (s.running = true → s.in_round = true)
  ∧ (s.running = false → s.total_rounds = 5)
  ∧ (∀ u ∈ s.registered, u ∈ dkeys s.scores)

theorem invP_init : InvP initState := by
  refine ⟨?_, ?_, ?_, ?_⟩ <;> simp [initState, InvP, dkeys]

theorem invP_step (s : GameState) (c : Cmd) (h : InvP s) : InvP (stepState s c) := by
  obtain ⟨h1, h2, h3, h4⟩ := h
  cases c with
  | announce e =>
    show InvP (announce_game s e).2
    rcases announce_state s e with hs | ⟨gid, title, hs⟩ <;> rw [hs]
    · exact ⟨h1, h2, h3, h4⟩
    · refine ⟨?_, ?_, ?_, ?_⟩ <;> simp
  | reg e =>
    show InvP (register s e).2
    rcases register_state s e with hs | hs <;> rw [hs]
    · exact ⟨h1, h2, h3, h4⟩
    · refine ⟨h1, h2, h3, ?_⟩
      intro u hu
      rcases Finset.mem_insert.mp hu with hu | hu
      · subst hu
        exact mem_dkeys_dsetdefault_self _ _ _
      · exact mem_dkeys_dsetdefault_of_mem _ _ _ _ (h4 u hu)
  | start e =>
    show InvP (start_game s e).2
    rcases start_game_state s e with hs | ⟨t, hs⟩ <;> rw [hs]
    · exact ⟨h1, h2, h3, h4⟩
    · refine ⟨?_, ?_, ?_, h4⟩ <;> simp
  | choice e c =>
    show InvP (handle_choice s e c).2
    rcases handle_choice_state s e c with hs | hs <;> rw [hs]
    · exact ⟨h1, h2, h3, h4⟩
    · exact ⟨h1, h2, h3, h4⟩
  | endRound e =>
    show InvP (end_round s e).2
    rcases end_round_state s e with hs | hs | ⟨hs, hle⟩ | hs <;> rw [hs]
    · exact ⟨h1, h2, h3, h4⟩
    · refine ⟨?_, ?_, ?_, ?_⟩ <;> simp
    · refine ⟨?_, ?_, ?_, ?_⟩
      · intro _
        exact Nat.lt_succ_of_le hle
      · intro _
        rfl
      · exact h3
      · intro u hu
        exact dkeys_subset_creditAll _ _ _ (h4 u hu)
    · refine ⟨?_, ?_, ?_, ?_⟩
      · intro ho
        exact Nat.lt_succ_of_lt (h1 ho)
      · intro _
        rfl
      · exact h3
      · intro u hu
        exact dkeys_subset_creditAll _ _ _ (h4 u hu)
  | endGame e =>
    show InvP (end_game s e).2
    rcases end_game_state s e with hs | hs <;> rw [hs]
    · exact ⟨h1, h2, h3, h4⟩
    · refine ⟨?_, ?_, ?_, ?_⟩ <;> simp

theorem invP_reachable (s : GameState) (h : Reachable s) : InvP s := by
  induction h with
  | init => exact invP_init
  | step c _ ih => exact invP_step _ c ih

/-! ### Settlement lemmas shared by the claims about `_settle_round` -/

theorem settle_round_msgs (s : GameState) :
    (settle_round s).1
      = [Msg.groupSettle s.group_id s.overtime s.round_index (tallyA s.choices)
          (tallyB s.choices) (roundWinnerOf s)
          (tallyA s.choices == tallyB s.choices)] := rfl

theorem settle_scores_getD (s : GameState) (hnd : DKeysNodup s.choices) (u : Int) :
    dgetD (settle_round s).2.scores u 0
      = dgetD s.scores u 0
        + (if dlookup s.choices u = some (roundWinnerOf s) then 1 else 0) := by
  have hsc : (settle_round s).2.scores
      = creditAll s.scores (winnersOf s.choices (roundWinnerOf s)) := rfl
  rw [hsc, creditAll_getD _ (winnersOf_nodup _ hnd _)]
  congr 1
  exact if_congr (mem_winnersOf _ hnd _ _) rfl rfl

/-! ### Claim theorems -/

/-- C1: for every choice mapping whose A-count differs from its B-count,
`_settle_round` declares the label with the strictly smaller count the
winner, and adds exactly 1 to the score of every participant whose
recorded choice equals that winner and to nobody else's. -/
theorem settle_minority_wins (s : GameState) (hnd : DKeysNodup s.choices)
    (hne : tallyA s.choices ≠ tallyB s.choices) :
    roundWinnerOf s
        = (if tallyA s.choices < tallyB s.choices then Choice.A else Choice.B)
    ∧ ∀ u : Int,
        dgetD (settle_round s).2.scores u 0
          = dgetD s.scores u 0
            + (if dlookup s.choices u = some (roundWinnerOf s) then 1 else 0) := by
  constructor
  · unfold roundWinnerOf roundWinner
    rw [if_neg hne]
  · exact settle_scores_getD s hnd

/-- Witness for C1 at a concrete round: votes A,A,B give winner B and
the single B-voter gains exactly one point while an A-voter gains none. -/
theorem settle_minority_wins_witness :
    roundWinnerOf
        { group_id := some 1, running := true, in_round := true,
          registered := {1, 2, 3},
          choices := [(1, Choice.A), (2, Choice.A), (3, Choice.B)],
          scores := [(1, 0), (2, 0), (3, 0)], round_index := 1,
          total_rounds := 5 } = Choice.B
    ∧ dgetD (settle_round
        { group_id := some 1, running := true, in_round := true,
          registered := {1, 2, 3},
          choices := [(1, Choice.A), (2, Choice.A), (3, Choice.B)],
          scores := [(1, 0), (2, 0), (3, 0)], round_index := 1,
          total_rounds := 5 }).2.scores 3 0 = 1
    ∧ dgetD (settle_round
        { group_id := some 1, running := true, in_round := true,
          registered := {1, 2, 3},
          choices := [(1, Choice.A), (2, Choice.A), (3, Choice.B)],
          scores := [(1, 0), (2, 0), (3, 0)], round_index := 1,
          total_rounds := 5 }).2.scores 1 0 = 0 :=
  ⟨((settle_minority_wins _ (by decide) (by decide)).1).trans (by decide),
   ((settle_minority_wins _ (by decide) (by decide)).2 3).trans (by decide),
   ((settle_minority_wins _ (by decide) (by decide)).2 1).trans (by decide)⟩

/-- C2: for every choice mapping with equal A- and B-counts (including
the empty mapping, where both counts are 0 and no error arises),
`_settle_round` declares A the winner on odd round indices and B on even
ones, announcing the tie reason. -/
theorem settle_tie_parity (s : GameState)
    (h : tallyA s.choices = tallyB s.choices) :
    roundWinnerOf s = (if s.round_index % 2 = 1 then Choice.A else Choice.B)
    ∧ (settle_round s).1
        = [Msg.groupSettle s.group_id s.overtime s.round_index
            (tallyA s.choices) (tallyB s.choices) (roundWinnerOf s) true]
    ∧ tallyA ([] : Dict Choice) = 0 ∧ tallyB ([] : Dict Choice) = 0 := by
  refine ⟨?_, ?_, rfl, rfl⟩
  · unfold roundWinnerOf roundWinner
    rw [if_pos h]
  · rw [settle_round_msgs, beq_iff_eq.mpr h]

/-- Witness for C2 at a concrete round: the empty choice mapping on round
1 (odd) raises no error and yields winner A by the parity rule. -/
theorem settle_tie_parity_witness :
    roundWinnerOf
        { group_id := some 1, running := true, in_round := true,
          registered := {1, 2}, choices := [], scores := [(1, 0), (2, 0)],
          round_index := 1, total_rounds := 5 } = Choice.A
    ∧ tallyA ([] : Dict Choice) = 0 ∧ tallyB ([] : Dict Choice) = 0 :=
  ⟨((settle_tie_parity _ (by decide)).1).trans (by decide),
   (settle_tie_parity
      { group_id := some 1, running := true, in_round := true,
        registered := {1, 2}, choices := [], scores := [(1, 0), (2, 0)],
        round_index := 1, total_rounds := 5 } (by decide)).2.2.1,
   (settle_tie_parity
      { group_id := some 1, running := true, in_round := true,
        registered := {1, 2}, choices := [], scores := [(1, 0), (2, 0)],
        round_index := 1, total_rounds := 5 } (by decide)).2.2.2⟩

/-- C3 counterexample: with the game bound to group 1, the commands
start_game / end_round / end_game issued from group 2 are not rejected
with a wrong-channel error — each one mutates the game state. -/
theorem channel_check_counterexample :
    (end_round
        { group_id := some 1, running := true, in_round := true,
          registered := {7}, choices := [(7, Choice.A)], scores := [(7, 0)],
          round_index := 1, total_rounds := 5 }
        { group_id := some 2, sender_id := 0, message_str := "" }).2
      ≠ { group_id := some 1, running := true, in_round := true,
          registered := {7}, choices := [(7, Choice.A)], scores := [(7, 0)],
          round_index := 1, total_rounds := 5 }
    ∧ Msg.replyWrongChannel (some 1)
        ∉ (end_round
            { group_id := some 1, running := true, in_round := true,
              registered := {7}, choices := [(7, Choice.A)], scores := [(7, 0)],
              round_index := 1, total_rounds := 5 }
            { group_id := some 2, sender_id := 0, message_str := "" }).1
    ∧ (start_game { group_id := some 1, registered := {7}, scores := [(7, 0)] }
        { group_id := some 2, sender_id := 0, message_str := "" }).2.running
      = true
    ∧ (end_game
        { group_id := some 1, running := true, in_round := true,
          registered := {7}, choices := [(7, Choice.A)], scores := [(7, 0)],
          round_index := 1, total_rounds := 5 }
        { group_id := some 2, sender_id := 0, message_str := "" }).2.running
      = false := by
  decide

/-- C3 amended: start_game, end_round and end_game never consult the
invoking channel — their behaviour depends on the event only through
start_game's argument text, so invocations from any channel with the same
arguments produce identical messages and state (only register enforces
the bound channel). -/
theorem admin_commands_channel_independent (s : GameState) (e1 e2 : Event)
    (h : e1.message_str = e2.message_str) :
    start_game s e1 = start_game s e2
    ∧ end_round s e1 = end_round s e2
    ∧ end_game s e1 = end_game s e2 :=
  ⟨by unfold start_game; rw [h], rfl, rfl⟩

/-- Witness for the amended C3: a bound-channel event and a foreign
private event with the same argument text behave identically. -/
theorem admin_commands_channel_independent_witness :
    start_game { group_id := some 1, registered := {7}, scores := [(7, 0)] }
        { group_id := some 1, sender_id := 0, message_str := "3" }
      = start_game { group_id := some 1, registered := {7}, scores := [(7, 0)] }
          { group_id := none, sender_id := 42, message_str := "3" }
    ∧ end_round { group_id := some 1, registered := {7}, scores := [(7, 0)] }
        { group_id := some 1, sender_id := 0, message_str := "3" }
      = end_round { group_id := some 1, registered := {7}, scores := [(7, 0)] }
          { group_id := none, sender_id := 42, message_str := "3" }
    ∧ end_game { group_id := some 1, registered := {7}, scores := [(7, 0)] }
        { group_id := some 1, sender_id := 0, message_str := "3" }
      = end_game { group_id := some 1, registered := {7}, scores := [(7, 0)] }
          { group_id := none, sender_id := 42, message_str := "3" } :=
  admin_commands_channel_independent
    { group_id := some 1, registered := {7}, scores := [(7, 0)] } _ _ rfl

/-- C4: in every reachable state, the overtime flag implies that the
round index has moved strictly beyond the regular round target. -/
theorem overtime_implies_round_beyond_total (s : GameState) (hr : Reachable s)
    (ho : s.overtime = true) : s.total_rounds < s.round_index :=
  (invP_reachable s hr).1 ho

/-- The command sequence driving C4's witness into overtime: a 1-round
game with two registered players and no submissions ties their scores at
0, so settling round 1 enters overtime. -/
def overtimeDemoCmds : List Cmd :=
  [Cmd.announce { group_id := some 1, sender_id := 0, message_str := "1" },
   Cmd.reg { group_id := some 1, sender_id := 7, message_str := "" },
   Cmd.reg { group_id := some 1, sender_id := 8, message_str := "" },
   Cmd.start { group_id := some 1, sender_id := 0, message_str := "1" },
   Cmd.endRound { group_id := some 1, sender_id := 0, message_str := "" }]

/-- Witness for C4: the state reached by `overtimeDemoCmds` has
`overtime = true` and its round index 2 exceeds its round target 1. -/
theorem overtime_implies_round_beyond_total_witness :
    (runCmds initState overtimeDemoCmds).overtime = true
    ∧ (runCmds initState overtimeDemoCmds).total_rounds
        < (runCmds initState overtimeDemoCmds).round_index :=
  ⟨by decide,
   overtime_implies_round_beyond_total _
     (reachable_runCmds _ _ Reachable.init) (by decide)⟩

/-- C5: end_game invoked while running with an open round settles that
round exactly once — every participant who chose the round winner gains
exactly 1 point and nobody else gains — and then finishes directly: its
output is the settlement message followed by the finish messages, and
its final state is the reset state, with no overtime-continuation branch
consulted. -/
theorem force_end_settles_once (s : GameState) (e : Event)
    (hrun : s.running = true) (hin : s.in_round = true)
    (hnd : DKeysNodup s.choices) :
    (end_game s e).2 = { group_id := s.group_id, title := s.title }
    ∧ (end_game s e).1
        = (settle_round s).1 ++ (finish_game (settle_round s).2).1
    ∧ ∀ u : Int,
        dgetD (settle_round s).2.scores u 0
          = dgetD s.scores u 0
            + (if dlookup s.choices u = some (roundWinnerOf s) then 1 else 0) := by
  have hg : (!s.running) = false := by rw [hrun]; rfl
  refine ⟨?_, ?_, settle_scores_getD s hnd⟩
  · unfold end_game
    rw [hg]
    simp only [Bool.false_eq_true, if_false, hin, if_true]
    rfl
  · unfold end_game
    rw [hg]
    simp only [Bool.false_eq_true, if_false, hin, if_true]

/-- Witness for C5: a force-ended round whose two players remain tied at
the top still finishes the game (reset state) instead of entering
overtime, and the settled scores reflect exactly that round. -/
theorem force_end_settles_once_witness :
    (end_game
        { group_id := some 1, running := true, in_round := true,
          registered := {1, 2}, choices := [(1, Choice.A), (2, Choice.A)],
          scores := [(1, 1), (2, 1)], round_index := 2, total_rounds := 2 }
        { group_id := some 1, sender_id := 0, message_str := "" }).2
      = { group_id := some 1, title := "少数胜游戏" }
    ∧ 2 ≤ (leaders (settle_round
        { group_id := some 1, running := true, in_round := true,
          registered := {1, 2}, choices := [(1, Choice.A), (2, Choice.A)],
          scores := [(1, 1), (2, 1)], round_index := 2, total_rounds := 2 }).2).1.length
    ∧ dgetD (settle_round
        { group_id := some 1, running := true, in_round := true,
          registered := {1, 2}, choices := [(1, Choice.A), (2, Choice.A)],
          scores := [(1, 1), (2, 1)], round_index := 2, total_rounds := 2 }).2.scores 1 0
      = 1 :=
  ⟨(force_end_settles_once _ _ (by decide) (by decide) (by decide)).1,
   by decide,
   ((force_end_settles_once _
       { group_id := some 1, sender_id := 0, message_str := "" }
       (by decide) (by decide) (by decide)).2.2 1).trans (by decide)⟩

/-- C6 counterexample: `"0".isdigit()` holds, so `/start_game 0` starts
the game with `total_rounds = 0`, which is not a positive integer. -/
theorem start_total_rounds_counterexample :
    (start_game { group_id := some 1, registered := {7}, scores := [(7, 0)] }
        { group_id := some 1, sender_id := 0, message_str := "0" }).2.running
      = true
    ∧ (start_game { group_id := some 1, registered := {7}, scores := [(7, 0)] }
        { group_id := some 1, sender_id := 0, message_str := "0" }).2.total_rounds
      = 0 := by
  decide

/-- A successful start_game: the guards passed, so the state records the
parsed round target (the first all-digit token, else the previous
target) and opens round 1. -/
theorem start_game_success (s : GameState) (e : Event)
    (hg : gidTruthy s.group_id = true) (hnr : s.running = false)
    (hpl : ¬ s.registered.card < 1) :
    (start_game s e).2
      = { s with
          total_rounds :=
            (match pySplit e.message_str with
             | p :: _ => if strIsDigit p then strToNat p else s.total_rounds
             | [] => s.total_rounds),
          running := true, round_index := 1, overtime := false,
          in_round := true, choices := [] } := by
  unfold start_game
  rw [hg, hnr]
  simp only [Bool.not_true, Bool.false_eq_true, if_false, if_neg hpl]
  rfl

/-- C6 amended: a successful start from a reachable state sets
totalRounds to the decimal value of the first argument token whenever
that token consists solely of digits — this value may be 0, so
totalRounds need not be positive — and leaves the default 5 when the
argument is absent or not all digits. -/
theorem start_total_rounds_amended (s : GameState) (e : Event)
    (hr : Reachable s) (hg : gidTruthy s.group_id = true)
    (hnr : s.running = false) (hpl : ¬ s.registered.card < 1) :
    (start_game s e).2.total_rounds
      = (match pySplit e.message_str with
         | p :: _ => if strIsDigit p then strToNat p else 5
         | [] => 5) := by
  have h5 : s.total_rounds = 5 := (invP_reachable s hr).2.2.1 hnr
  rw [start_game_success s e hg hnr hpl]
  show (match pySplit e.message_str with
        | p :: _ => if strIsDigit p then strToNat p else s.total_rounds
        | [] => s.total_rounds)
      = _
  rw [h5]

/-- The command sequence driving C6's witness: announce in group 1,
register one player, leaving a reachable state ready to start. -/
def preStartDemoCmds : List Cmd :=
  [Cmd.announce { group_id := some 1, sender_id := 0, message_str := "1" },
   Cmd.reg { group_id := some 1, sender_id := 7, message_str := "" }]

/-- Witness for the amended C6: starting the reachable demo state with
argument "0" yields `total_rounds = 0`. -/
theorem start_total_rounds_amended_witness :
    (start_game (runCmds initState preStartDemoCmds)
        { group_id := some 1, sender_id := 0, message_str := "0" }).2.total_rounds
      = 0 :=
  (start_total_rounds_amended _ _ (reachable_runCmds _ _ Reachable.init)
      (by decide) (by decide) (by decide)).trans (by decide)

/-- C7: a choice submission whose event is a group event is silently
dropped — no message is emitted and every field of the state is left
unchanged — regardless of the phase or the sender's registration. -/
theorem group_submission_ignored (s : GameState) (e : Event) (c : Choice)
    (h : is_group_event e = true) :
    handle_choice s e c = ([], s) := by
  unfold handle_choice is_private_event
  rw [h]
  rfl

/-- Witness for C7: a group-channel submission during an open round by a
registered player is still ignored wholesale. -/
theorem group_submission_ignored_witness :
    handle_choice
        { group_id := some 1, running := true, in_round := true,
          registered := {7}, choices := [], scores := [(7, 0)],
          round_index := 1, total_rounds := 5 }
        { group_id := some 1, sender_id := 7, message_str := "" } Choice.A
      = ([],
         { group_id := some 1, running := true, in_round := true,
           registered := {7}, choices := [], scores := [(7, 0)],
           round_index := 1, total_rounds := 5 }) :=
  group_submission_ignored _ _ _ (by decide)

/-- A successful register: the guards passed, so the sender is added to
the registered set and seeded into the scores with `setdefault(uid, 0)`. -/
theorem register_success (s : GameState) (e : Event)
    (hg : gidTruthy s.group_id = true) (hge : is_group_event e = true)
    (heq : e.group_id = s.group_id) :
    register s e
      = ([Msg.replyRegistered],
         { s with registered := insert e.sender_id s.registered,
                  scores := dsetdefault s.scores e.sender_id 0 }) := by
  unfold register
  rw [hg, hge]
  have hne : (e.group_id != s.group_id) = false := by
    rw [heq]
    simp
  rw [hne]
  rfl

/-- C8: register is idempotent — a second registration of an
already-registered participant succeeds, leaves the registered set and
the participant's recorded score unchanged (and the whole scores map
unchanged when the participant already has an entry), and two
registrations of a fresh participant grow the set by exactly 1 in total. -/
theorem register_idempotent (s : GameState) (e : Event)
    (hg : gidTruthy s.group_id = true) (hge : is_group_event e = true)
    (heq : e.group_id = s.group_id) :
    (register s e).1 = [Msg.replyRegistered]
    ∧ (e.sender_id ∈ s.registered →
        (register s e).2.registered = s.registered)
    ∧ dgetD (register s e).2.scores e.sender_id 0
        = dgetD s.scores e.sender_id 0
    ∧ ((dlookup s.scores e.sender_id).isSome →
        (register s e).2.scores = s.scores)
    ∧ (e.sender_id ∉ s.registered →
        (register (register s e).2 e).2.registered.card
          = s.registered.card + 1) := by
  have hsucc := register_success s e hg hge heq
  refine ⟨?_, ?_, ?_, ?_, ?_⟩
  · rw [hsucc]
  · intro hmem
    rw [hsucc]
    exact Finset.insert_eq_self.mpr hmem
  · rw [hsucc]
    exact dgetD_dsetdefault_self _ _ _
  · intro hs
    rw [hsucc]
    show dsetdefault s.scores e.sender_id 0 = s.scores
    unfold dsetdefault
    cases h : dlookup s.scores e.sender_id with
    | some v => rfl
    | none =>
      rw [h] at hs
      exact absurd hs (by simp)
  · intro hnmem
    have hg2 : gidTruthy (register s e).2.group_id = true := by
      rw [hsucc]
      exact hg
    have heq2 : e.group_id = (register s e).2.group_id := by
      rw [hsucc]
      exact heq
    have hsucc2 := register_success (register s e).2 e hg2 hge heq2
    rw [hsucc2, hsucc]
    show (insert e.sender_id (insert e.sender_id s.registered)).card
        = s.registered.card + 1
    rw [Finset.insert_idem]
    exact Finset.card_insert_of_not_mem hnmem

/-- Witness for C8: re-registering player 9 (score 3) changes nothing,
and registering fresh player 10 twice grows the set by exactly 1. -/
theorem register_idempotent_witness :
    (register { group_id := some 5, registered := {9}, scores := [(9, 3)] }
        { group_id := some 5, sender_id := 9, message_str := "" }).1
      = [Msg.replyRegistered]
    ∧ (register { group_id := some 5, registered := {9}, scores := [(9, 3)] }
        { group_id := some 5, sender_id := 9, message_str := "" }).2.registered
      = {9}
    ∧ (register { group_id := some 5, registered := {9}, scores := [(9, 3)] }
        { group_id := some 5, sender_id := 9, message_str := "" }).2.scores
      = [(9, 3)]
    ∧ (register (register
          { group_id := some 5, registered := {9}, scores := [(9, 3)] }
          { group_id := some 5, sender_id := 10, message_str := "" }).2
        { group_id := some 5, sender_id := 10, message_str := "" }).2.registered.card
      = 2 :=
  ⟨(register_idempotent _ _ (by decide) (by decide) (by decide)).1,
   ((register_idempotent _
       { group_id := some 5, sender_id := 9, message_str := "" }
       (by decide) (by decide) (by decide)).2.1 (by decide)),
   ((register_idempotent _
       { group_id := some 5, sender_id := 9, message_str := "" }
       (by decide) (by decide) (by decide)).2.2.2.1 (by decide)),
   ((register_idempotent _
       { group_id := some 5, sender_id := 10, message_str := "" }
       (by decide) (by decide) (by decide)).2.2.2.2 (by decide)).trans
     (by decide)⟩

/-- A successful end_round always opens with the settlement summary. -/
theorem end_round_msgs_success (s : GameState) (e : Event)
    (hrun : s.running = true) (hin : s.in_round = true) :
    ∃ rest, (end_round s e).1
      = Msg.groupSettle s.group_id s.overtime s.round_index
          (tallyA s.choices) (tallyB s.choices) (roundWinnerOf s)
          (tallyA s.choices == tallyB s.choices) :: rest := by
  unfold end_round
  have hg : (!s.running || !s.in_round) = false := by
    rw [hrun, hin]
    rfl
  rw [hg]
  simp only [Bool.false_eq_true, if_false]
  split
  · split
    · exact ⟨_, rfl⟩
    · exact ⟨_, rfl⟩
  · split
    · split
      · exact ⟨_, rfl⟩
      · exact ⟨_, rfl⟩
    · exact ⟨_, rfl⟩

/-- C9: in every reachable (quiescent) state a running game has an open
round, so end_round answers "no round in progress" exactly in the
states where the game is not running at all. -/
theorem running_implies_in_round (s : GameState) (e : Event)
    (hr : Reachable s) :
    (s.running = true → s.in_round = true)
    ∧ ((end_round s e).1 = [Msg.replyNoRound] ↔ s.running = false) := by
  have h2 := (invP_reachable s hr).2.1
  refine ⟨h2, ?_⟩
  cases hrun : s.running with
  | false =>
    have hg : (!s.running || !s.in_round) = true := by
      rw [hrun]
      rfl
    have hmsg : (end_round s e).1 = [Msg.replyNoRound] := by
      unfold end_round
      rw [hg]
      rfl
    simp [hmsg]
  | true =>
    obtain ⟨rest, hmsg⟩ := end_round_msgs_success s e hrun (h2 hrun)
    rw [hmsg]
    constructor
    · intro habs
      simp at habs
    · intro hfalse
      exact absurd hfalse (by simp)

/-- The command sequence driving C9's witness into a running round. -/
def runningDemoCmds : List Cmd :=
  [Cmd.announce { group_id := some 1, sender_id := 0, message_str := "1" },
   Cmd.reg { group_id := some 1, sender_id := 7, message_str := "" },
   Cmd.start { group_id := some 1, sender_id := 0, message_str := "" }]

/-- Witness for C9: the reachable state after announce/register/start is
running and indeed has an open round. -/
theorem running_implies_in_round_witness :
    (runCmds initState runningDemoCmds).running = true
    ∧ (runCmds initState runningDemoCmds).in_round = true :=
  ⟨by decide,
   (running_implies_in_round _
       { group_id := some 1, sender_id := 0, message_str := "" }
       (reachable_runCmds _ _ Reachable.init)).1 (by decide)⟩

/-- C10: a successful register seeds the sender into the scores with
value 0 when absent (keeping an existing value), in every reachable state
the registered set is contained in the scores keys, hence the final
ranking lists every registered participant and the "no one scored"
branch of finish can fire only when nobody is registered. -/
theorem register_seeds_scores (s : GameState) (e : Event)
    (hr : Reachable s) :
    (∀ u ∈ s.registered, u ∈ dkeys s.scores)
    ∧ ((register s e).1 = [Msg.replyRegistered] →
        dlookup (register s e).2.scores e.sender_id
          = some (dgetD s.scores e.sender_id 0))
    ∧ (∀ u ∈ s.registered, u ∈ (rankSort s.scores).map Prod.fst)
    ∧ ((finish_game s).1 = [Msg.groupNoScores s.group_id] →
        s.registered = ∅) := by
  have h4 := (invP_reachable s hr).2.2.2
  refine ⟨h4, ?_, ?_, ?_⟩
  · unfold register
    split
    · intro habs
      simp at habs
    · split
      · intro habs
        simp at habs
      · intro _
        exact dlookup_dsetdefault_self _ _ _
  · intro u hu
    rw [mem_map_fst_rankSort]
    exact h4 u hu
  · intro hmsg
    unfold finish_game at hmsg
    dsimp only at hmsg
    split at hmsg
    · rename_i hemp
      have hnil : rankSort s.scores = [] := by
        cases hr2 : rankSort s.scores with
        | nil => rfl
        | cons a t =>
          rw [hr2] at hemp
          simp [List.isEmpty] at hemp
      have hsc : s.scores = [] := (rankSort_eq_nil_iff _).mp hnil
      refine Finset.eq_empty_iff_forall_not_mem.mpr ?_
      intro u hu
      have hmem := h4 u hu
      rw [hsc] at hmem
      simp [dkeys] at hmem
    · simp at hmsg

/-- The command sequence driving C10's witness: announce and register
player 7, who never scores. -/
def registerDemoCmds : List Cmd :=
  [Cmd.announce { group_id := some 1, sender_id := 0, message_str := "1" },
   Cmd.reg { group_id := some 1, sender_id := 7, message_str := "" }]

/-- Witness for C10: in the reachable demo state, registered player 7
has a scores entry, appears in the final ranking, and re-registering
keeps the recorded value 0. -/
theorem register_seeds_scores_witness :
    (7 : Int) ∈ dkeys (runCmds initState registerDemoCmds).scores
    ∧ (7 : Int)
        ∈ (rankSort (runCmds initState registerDemoCmds).scores).map Prod.fst
    ∧ dlookup (register (runCmds initState registerDemoCmds)
          { group_id := some 1, sender_id := 7, message_str := "" }).2.scores 7
      = some 0 :=
  ⟨(register_seeds_scores _
      { group_id := some 1, sender_id := 7, message_str := "" }
      (reachable_runCmds _ _ Reachable.init)).1 7 (by decide),
   (register_seeds_scores _
      { group_id := some 1, sender_id := 7, message_str := "" }
      (reachable_runCmds _ _ Reachable.init)).2.2.1 7 (by decide),
   ((register_seeds_scores _
      { group_id := some 1, sender_id := 7, message_str := "" }
      (reachable_runCmds _ _ Reachable.init)).2.1 (by decide)).trans
    (by decide)⟩

end MinorGame
